import Mathlib

/-!
# Attica `Provider` (lib/provider.cpp): request building and job dispatch

A shallow embedding of `lib/provider.cpp`.  `QString` is `String`, `int` is `Int`
(no arithmetic is done on it, so every statement about all of `Int` holds for the 32-bit
values), `KUrl` is a record of its components, and a job is the record of the calls made
on it.  The `qDebug()`/`kDebug()` lines only print and are left out.

`KUrl`, `QString` and `QStringList` belong to KDE and Qt, not to this repository; they are
modelled after their behaviour in kdelibs: `addPath` joins two paths with one slash
between them and leaves host and query alone; it ends in `setPath`, which gives a URL
without a scheme the scheme `file`.  `addQueryItem` puts `item=value` after the items
already there, with the value percent-encoded.
-/

namespace Attica

/-! ## KUrl -/

/-- A `KUrl`: scheme, host, path and the query items, in the order they were added,
each with its value before percent-encoding. -/
structure KUrl where
  scheme : String
  host : String
  path : String
  query : List (String × String)
  deriving DecidableEq, Repr

namespace KUrl

/-- Models `KUrl()`: the empty URL. -/
def empty : KUrl := ⟨"", "", "", []⟩

/-- Split `scheme://rest` at the first `://`. -/
def splitScheme : List Char → Option (List Char × List Char)
  | [] => none
  | c :: rest =>
    if c = ':' ∧ rest.take 2 = ['/', '/'] then some ([], rest.drop 2)
    else (splitScheme rest).map fun r => (c :: r.1, r.2)

/-- Models `KUrl(const char*)` for an absolute URL `scheme://host/path` without query or
fragment, which is the only form provider.cpp constructs one from. -/
def ofString (s : String) : KUrl :=
  match splitScheme s.data with
  | none => ⟨"", "", s, []⟩
  | some (sch, rest) =>
    ⟨String.mk sch, String.mk (rest.takeWhile (· ≠ '/')), String.mk (rest.dropWhile (· ≠ '/')), []⟩

/-- Strip the leading `/` characters: the `while (_txt[i] == '/') ++i` loop of `addPath`. -/
def stripSlashes : List Char → List Char
  | [] => []
  | c :: rest => if c = '/' then stripSlashes rest else c :: rest

/-- The path computed by `KUrl::addPath`: a `/` is appended to the current path when
neither side supplies one, and when the current path ends in `/` the leading
slashes of `txt` are dropped. -/
def joinPath (strPath txt : List Char) : List Char :=
  if txt = [] then strPath
  else
    let strPath1 :=
      if txt.head? ≠ some '/' ∧ (strPath = [] ∨ strPath.getLast? ≠ some '/')
      then strPath ++ ['/'] else strPath
    let rest := if strPath1.getLast? = some '/' then stripSlashes txt else txt
    strPath1 ++ rest

/-- Models `KUrl::setPath(path)`: a URL that has no scheme becomes a `file` URL. -/
def setPath (u : KUrl) (path : String) : KUrl :=
  { u with scheme := if u.scheme = "" then "file" else u.scheme, path := path }

/-- Models `KUrl::addPath(txt)`: nothing is done for an empty `txt`; otherwise the joined
path is set with `setPath`. -/
def addPath (u : KUrl) (txt : String) : KUrl :=
  if txt = "" then u
  else u.setPath (String.mk (joinPath u.path.data txt.data))

/-- Models `KUrl::addQueryItem(item, value)`: the item goes after those already there. -/
def addQueryItem (u : KUrl) (item value : String) : KUrl :=
  { u with query := u.query ++ [(item, value)] }

/-- The UTF-8 bytes of a character. -/
def utf8 (c : Char) : List Nat :=
  let n := c.toNat
  if n < 0x80 then [n]
  else if n < 0x800 then [0xC0 + n / 64, 0x80 + n % 64]
  else if n < 0x10000 then [0xE0 + n / 4096, 0x80 + n / 64 % 64, 0x80 + n % 64]
  else [0xF0 + n / 262144, 0x80 + n / 4096 % 64, 0x80 + n / 64 % 64, 0x80 + n % 64]

/-- The unreserved characters, which `QUrl::toPercentEncoding` leaves as they are. -/
def unreserved (c : Char) : Bool :=
  c.isAlphanum || c = '-' || c = '.' || c = '_' || c = '~'

/-- An upper-case hexadecimal digit. -/
def hexDigit (n : Nat) : Char :=
  if n < 10 then Char.ofNat (48 + n) else Char.ofNat (55 + n)

/-- Models `QUrl::toPercentEncoding` of one character. -/
def encodeChar (c : Char) : List Char :=
  if unreserved c then [c]
  else (utf8 c).flatMap fun b => ['%', hexDigit (b / 16), hexDigit (b % 16)]

/-- Models `QUrl::toPercentEncoding(value)`. -/
def toPercentEncoding (value : String) : String :=
  String.mk (value.data.flatMap encodeChar)

/-- The encoded query of a list of items: `item=value` joined by `&`, as
`addQueryItem` builds it up. -/
def encodeItems : List (String × String) → String
  | [] => ""
  | [(k, v)] => k ++ "=" ++ toPercentEncoding v
  | (k, v) :: rest => k ++ "=" ++ toPercentEncoding v ++ "&" ++ encodeItems rest

/-- Models `KUrl::encodedQuery()`/`query()` without the leading `?`. -/
def encodedQuery (u : KUrl) : String := encodeItems u.query

/-- Models `KUrl::url()`: the whole URL as text. -/
def url (u : KUrl) : String :=
  (if u.scheme = "" then "" else u.scheme ++ "://") ++ u.host ++ u.path ++
    (if u.query = [] then "" else "?" ++ u.encodedQuery)

/-- Models `KUrl::hasQueryItem(item)`. -/
def hasQueryItem (u : KUrl) (item : String) : Bool :=
  u.query.any fun kv => kv.1 == item

/-- Models `KUrl::allQueryItemValues(item)`: the values given for `item`, in order. -/
def allQueryItemValues (u : KUrl) (item : String) : List String :=
  (u.query.filter fun kv => kv.1 == item).map Prod.snd

end KUrl

/-! ## Provider -/

/-- Models `Provider::Private`: the three members of a provider. -/
structure Provider where
  m_baseUrl : KUrl
  m_id : String
  m_name : String
  deriving DecidableEq, Repr

namespace Provider

/-- Models `Provider::Provider()`. -/
def default : Provider := ⟨KUrl.empty, "", ""⟩

/-- Models `Provider::byId`. -/
def byId (id : String) : Provider :=
  if id = "opendesktop" then
    ⟨KUrl.ofString "https://api.opendesktop.org/v1/", id, "OpenDesktop.org"⟩
  else
    Provider.default

/-- Models `Provider::id()`. -/
def id (p : Provider) : String := p.m_id

/-- Models `Provider::name()`. -/
def name (p : Provider) : String := p.m_name

/-- Models `Provider::createUrl`. -/
def createUrl (p : Provider) (path : String) : KUrl :=
  p.m_baseUrl.addPath path

end Provider

/-! ## Values passed to the operations -/

/-- Modelled from the spec: `Provider::SortMode` is declared in provider.h, outside
provider.cpp; its four values are the cases of the switches in provider.cpp. -/
inductive SortMode where
  | Newest
  | Alphabetical
  | Rating
  | Downloads
  deriving DecidableEq, Repr

/-- Modelled from the spec: the `Message` class is declared outside provider.cpp;
`postMessage` reads its `body()`, `subject()` and `to()`; the last is `recipient`
here. -/
structure Message where
  recipient : String
  subject : String
  body : String
  deriving DecidableEq, Repr

/-- Modelled from the spec: the `Category` class is declared outside provider.cpp;
`requestContent` reads only its `id()`. -/
structure Category where
  id : String
  name : String
  deriving DecidableEq, Repr

/-- Models `QString::number(int)`: decimal digits, with a leading `-` below zero. -/
def number (n : Int) : String :=
  if n < 0 then "-" ++ Nat.repr n.natAbs else Nat.repr n.natAbs

/-- The Qt conversions whose result rests on floating point or on the calendar;
the operations take them as given. -/
structure Formats (qreal QDate : Type) where
  /-- Models `QString::number(qreal)` -/
  number : qreal → String
  /-- Models `QString("%1").arg(qreal)` -/
  arg : qreal → String
  /-- Models `QDate::toString(Qt::ISODate)` -/
  toStringISO : QDate → String

/-- Models `QStringList::join(sep)`: the loop `if (i) res += sep; res += at(i)`. -/
def join (l : List String) (sep : String) : String :=
  (l.foldl (fun (st : String × Nat) s =>
    ((if st.2 ≠ 0 then st.1 ++ sep else st.1) ++ s, st.2 + 1)) ("", 0)).1

/-! ## Jobs -/

/-- The job classes provider.cpp instantiates. -/
inductive JobKind where
  | Person | PersonList | ActivityList | FolderList | MessageList | Post
  | CategoryList | ContentList | Content | KnowledgeBase | KnowledgeBaseList
  | Event | EventList
  deriving DecidableEq, Repr

/-- A call made on a job. -/
inductive Call where
  | setUrl (url : KUrl)
  | setData (name value : String)
  | start
  deriving DecidableEq, Repr

/-- Modelled from the spec: the job classes are declared outside provider.cpp.  A job
is its class together with the calls made on it so far, oldest first. -/
structure Job where
  kind : JobKind
  calls : List Call
  deriving DecidableEq, Repr

namespace Job

/-- Models `new XJob()`. -/
def new (kind : JobKind) : Job := ⟨kind, []⟩

/-- Models `job->setUrl(url)`. -/
def setUrl (j : Job) (url : KUrl) : Job := { j with calls := j.calls ++ [Call.setUrl url] }

/-- Models `job->setData(name, value)`. -/
def setData (j : Job) (name value : String) : Job :=
  { j with calls := j.calls ++ [Call.setData name value] }

/-- Models `job->start()`. -/
def start (j : Job) : Job := { j with calls := j.calls ++ [Call.start] }

/-- The URL the job was last given. -/
def url (j : Job) : KUrl :=
  j.calls.foldl (fun u c => match c with | Call.setUrl v => v | _ => u) KUrl.empty

/-- The payload: the fields given by `setData`, in the order they were set. -/
def data (j : Job) : List (String × String) :=
  j.calls.filterMap fun c => match c with | Call.setData k v => some (k, v) | _ => none

/-- How many times the job was started. -/
def starts (j : Job) : Nat := j.calls.count Call.start

end Job

/-! ## The operations of `Provider` -/

namespace Provider

variable {qreal QDate : Type}

/-- Models `Provider::doRequestPerson`. -/
def doRequestPerson (url : KUrl) : Job :=
  let job := Job.new JobKind.Person
  let job := job.setUrl url
  job.start

/-- Models `Provider::doRequestPersonList`. -/
def doRequestPersonList (url : KUrl) : Job :=
  let job := Job.new JobKind.PersonList
  let job := job.setUrl url
  job.start

/-- Models `Provider::doRequestActivityList`. -/
def doRequestActivityList (url : KUrl) : Job :=
  let job := Job.new JobKind.ActivityList
  let job := job.setUrl url
  job.start

/-- Models `Provider::doRequestFolderList`. -/
def doRequestFolderList (url : KUrl) : Job :=
  let job := Job.new JobKind.FolderList
  let job := job.setUrl url
  job.start

/-- Models `Provider::doRequestMessageList`. -/
def doRequestMessageList (url : KUrl) : Job :=
  let job := Job.new JobKind.MessageList
  let job := job.setUrl url
  job.start

/-- Models `Provider::requestPerson`. -/
def requestPerson (p : Provider) (id : String) : Job :=
  let url := p.createUrl ("person/data/" ++ id)
  doRequestPerson url

/-- Models `Provider::requestPersonSelf`. -/
def requestPersonSelf (p : Provider) : Job :=
  let url := p.createUrl "person/self"
  doRequestPerson url

/-- Models `Provider::requestPersonSearchByName`. -/
def requestPersonSearchByName (p : Provider) (name : String) : Job :=
  let url := p.createUrl "person/data"
  let url := url.addQueryItem "name" name
  doRequestPersonList url

/-- Models `Provider::requestPersonSearchByLocation`. -/
def requestPersonSearchByLocation (F : Formats qreal QDate) (p : Provider)
    (latitude longitude distance : qreal) (page pageSize : Int) : Job :=
  let url := p.createUrl "person/data"
  let url := url.addQueryItem "latitude" (F.number latitude)
  let url := url.addQueryItem "longitude" (F.number longitude)
  let url := url.addQueryItem "distance" (F.number distance)
  let url := url.addQueryItem "page" (number page)
  let url := url.addQueryItem "pagesize" (number pageSize)
  doRequestPersonList url

/-- Models `Provider::requestFriend`. -/
def requestFriend (p : Provider) (id : String) (page pageSize : Int) : Job :=
  let url := p.createUrl ("friend/data/" ++ id)
  let url := url.addQueryItem "page" (number page)
  let url := url.addQueryItem "pagesize" (number pageSize)
  doRequestPersonList url

/-- Models `Provider::requestActivity`. -/
def requestActivity (p : Provider) : Job :=
  let url := p.createUrl "activity"
  doRequestActivityList url

/-- Models `Provider::postActivity`. -/
def postActivity (p : Provider) (message : String) : Job :=
  let job := Job.new JobKind.Post
  let url := p.createUrl "activity"
  let job := job.setUrl url
  let job := job.setData "message" message
  job.start

/-- Models `Provider::postInvitation`. -/
def postInvitation (p : Provider) (to_ message : String) : Job :=
  let job := Job.new JobKind.Post
  let url := p.createUrl ("friend/outbox/" ++ to_)
  let job := job.setUrl url
  let job := job.setData "message" message
  job.start

/-- Models `Provider::postLocation`. -/
def postLocation (F : Formats qreal QDate) (p : Provider)
    (latitude longitude : qreal) (city country : String) : Job :=
  let job := Job.new JobKind.Post
  let url := p.createUrl "person/self"
  let job := job.setUrl url
  let job := job.setData "latitude" (F.arg latitude)
  let job := job.setData "longitude" (F.arg longitude)
  let job := job.setData "city" city
  let job := job.setData "country" country
  job.start

/-- Models `Provider::requestFolders`. -/
def requestFolders (p : Provider) : Job :=
  doRequestFolderList (p.createUrl "message")

/-- Models `Provider::requestMessages`. -/
def requestMessages (p : Provider) (folderId : String) : Job :=
  doRequestMessageList (p.createUrl ("message/" ++ folderId))

/-- Models `Provider::postMessage`. -/
def postMessage (p : Provider) (message : Message) : Job :=
  let job := Job.new JobKind.Post
  let url := p.createUrl "message/2"
  let job := job.setUrl url
  let job := job.setData "message" message.body
  let job := job.setData "subject" message.subject
  let job := job.setData "to" message.recipient
  job.start

/-- Models `Provider::requestCategories`. -/
def requestCategories (p : Provider) : Job :=
  let job := Job.new JobKind.CategoryList
  let url := p.createUrl "content/categories"
  let job := job.setUrl url
  job.start

/-- Models `Provider::requestContent(const Category::List&, const QString&, SortMode)`. -/
def requestContent (p : Provider) (categories : List Category) (search : String)
    (sortMode : SortMode) : Job :=
  let job := Job.new JobKind.ContentList
  let url := p.createUrl "content/data"
  let categoryIds := categories.foldl (fun ids category => ids ++ [category.id]) []
  let url := url.addQueryItem "categories" (join categoryIds "x")
  let url := url.addQueryItem "search" search
  let sortModeString :=
    match sortMode with
    | SortMode.Newest => "new"
    | SortMode.Alphabetical => "alpha"
    | SortMode.Rating => "high"
    | SortMode.Downloads => "down"
  let url := if sortModeString ≠ "" then url.addQueryItem "sortmode" sortModeString else url
  let job := job.setUrl url
  job.start

/-- Models `Provider::requestContent(const QString& id)`. -/
def requestContentById (p : Provider) (id : String) : Job :=
  let job := Job.new JobKind.Content
  let url := p.createUrl ("content/data/" ++ id)
  let job := job.setUrl url
  job.start

/-- Models `Provider::requestKnowledgeBase(const QString& id)`. -/
def requestKnowledgeBaseById (p : Provider) (id : String) : Job :=
  let job := Job.new JobKind.KnowledgeBase
  let url := p.createUrl ("knowledgebase/data/" ++ id)
  let job := job.setUrl url
  job.start

/-- Models `Provider::requestKnowledgeBase(int, const QString&, SortMode, int, int)`. -/
def requestKnowledgeBase (p : Provider) (content : Int) (search : String)
    (sortMode : SortMode) (page pageSize : Int) : Job :=
  let job := Job.new JobKind.KnowledgeBaseList
  let url := p.createUrl "knowledgebase/data"
  let url := if content ≠ 0 then url.addQueryItem "content" (number content) else url
  let url := url.addQueryItem "search" search
  let sortModeString :=
    match sortMode with
    | SortMode.Newest => "new"
    | SortMode.Alphabetical => "alpha"
    | SortMode.Rating => "high"
    | SortMode.Downloads => "new"
  let url := if sortModeString ≠ "" then url.addQueryItem "sortmode" sortModeString else url
  let url := url.addQueryItem "page" (number page)
  let url := url.addQueryItem "pagesize" (number pageSize)
  let job := job.setUrl url
  job.start

/-- Models `Provider::requestEvent(const QString& id)`. -/
def requestEventById (p : Provider) (id : String) : Job :=
  let job := Job.new JobKind.Event
  let job := job.setUrl (p.createUrl ("event/data/" ++ id))
  job.start

/-- Models `Provider::requestEvent(const QString&, const QString&, const QDate&, SortMode, int, int)`. -/
def requestEvent (F : Formats qreal QDate) (p : Provider) (country search : String)
    (startAt : QDate) (mode : SortMode) (page pageSize : Int) : Job :=
  let job := Job.new JobKind.EventList
  let url := p.createUrl "event/data"
  let url := if search ≠ "" then url.addQueryItem "search" search else url
  let sortModeString :=
    match mode with
    | SortMode.Newest => "new"
    | SortMode.Alphabetical => "alpha"
    | _ => ""
  let url := if sortModeString ≠ "" then url.addQueryItem "sortmode" sortModeString else url
  let url := if country ≠ "" then url.addQueryItem "country" country else url
  let url := url.addQueryItem "startat" (F.toStringISO startAt)
  let url := url.addQueryItem "page" (number page)
  let url := url.addQueryItem "pagesize" (number pageSize)
  let job := job.setUrl url
  job.start

end Provider

/-- A call of one of the public `request…`/`post…` operations, with its arguments. -/
inductive Op (qreal QDate : Type) where
  | requestPerson (id : String)
  | requestPersonSelf
  | requestPersonSearchByName (name : String)
  | requestPersonSearchByLocation (latitude longitude distance : qreal) (page pageSize : Int)
  | requestFriend (id : String) (page pageSize : Int)
  | requestActivity
  | postActivity (message : String)
  | postInvitation (to_ message : String)
  | postLocation (latitude longitude : qreal) (city country : String)
  | requestFolders
  | requestMessages (folderId : String)
  | postMessage (message : Message)
  | requestCategories
  | requestContent (categories : List Category) (search : String) (sortMode : SortMode)
  | requestContentById (id : String)
  | requestKnowledgeBaseById (id : String)
  | requestKnowledgeBase (content : Int) (search : String) (sortMode : SortMode)
      (page pageSize : Int)
  | requestEventById (id : String)
  | requestEvent (country search : String) (startAt : QDate) (mode : SortMode)
      (page pageSize : Int)

namespace Op

variable {qreal QDate : Type}

/-- The job the operation returns. -/
def run (F : Formats qreal QDate) (p : Provider) : Op qreal QDate → Job
  | requestPerson id => p.requestPerson id
  | requestPersonSelf => p.requestPersonSelf
  | requestPersonSearchByName name => p.requestPersonSearchByName name
  | requestPersonSearchByLocation la lo d pg ps => p.requestPersonSearchByLocation F la lo d pg ps
  | requestFriend id pg ps => p.requestFriend id pg ps
  | requestActivity => p.requestActivity
  | postActivity m => p.postActivity m
  | postInvitation t m => p.postInvitation t m
  | postLocation la lo city country => p.postLocation F la lo city country
  | requestFolders => p.requestFolders
  | requestMessages f => p.requestMessages f
  | postMessage m => p.postMessage m
  | requestCategories => p.requestCategories
  | requestContent cs s m => p.requestContent cs s m
  | requestContentById id => p.requestContentById id
  | requestKnowledgeBaseById id => p.requestKnowledgeBaseById id
  | requestKnowledgeBase c s m pg ps => p.requestKnowledgeBase c s m pg ps
  | requestEventById id => p.requestEventById id
  | requestEvent c s d m pg ps => p.requestEvent F c s d m pg ps

/-- Whether the operation is one of the `post…` operations. -/
def isPost : Op qreal QDate → Bool
  | postActivity _ => true
  | postInvitation _ _ => true
  | postLocation _ _ _ _ => true
  | postMessage _ => true
  | _ => false

end Op

/-- Whether a path has two `/` in a row. -/
def hasDoubleSlash : List Char → Bool
  | [] => false
  | c :: rest => (c == '/' && rest.head? == some '/') || hasDoubleSlash rest

/-- The Qt conversions on reals and dates that are given by their text, for use at
concrete inputs. -/
def textFormats : Formats String String :=
  { number := fun s => s, arg := fun s => s, toStringISO := fun s => s }

/-! ## Lemmas -/

open Provider

section Lemmas

variable {qreal QDate : Type}

theorem addPath_query (u : KUrl) (txt : String) : (u.addPath txt).query = u.query := by
  unfold KUrl.addPath
  split <;> rfl

theorem addPath_host (u : KUrl) (txt : String) : (u.addPath txt).host = u.host := by
  unfold KUrl.addPath
  split <;> rfl

theorem addPath_path (u : KUrl) (txt : String) :
    (u.addPath txt).path = String.mk (KUrl.joinPath u.path.data txt.data) := by
  unfold KUrl.addPath
  split
  · next h => subst h; rfl
  · rfl

theorem addPath_scheme (u : KUrl) (txt : String) (h : u.scheme ≠ "") :
    (u.addPath txt).scheme = u.scheme := by
  unfold KUrl.addPath
  split
  · rfl
  · simp [KUrl.setPath, h]

theorem createUrl_query (p : Provider) (path : String) :
    (p.createUrl path).query = p.m_baseUrl.query :=
  addPath_query _ _

theorem collectIds_eq (cs : List Category) (acc : List String) :
    cs.foldl (fun ids category => ids ++ [category.id]) acc = acc ++ cs.map Category.id := by
  induction cs generalizing acc with
  | nil => simp
  | cons c cs ih => simp [ih]

theorem join_go (sep : String) (l : List String) (acc : String) (n : Nat) :
    (l.foldl (fun (st : String × Nat) s =>
      ((if st.2 ≠ 0 then st.1 ++ sep else st.1) ++ s, st.2 + 1)) (acc, n + 1)).1 =
      String.intercalate.go acc sep l := by
  induction l generalizing acc n with
  | nil => rfl
  | cons a l ih =>
    simp only [List.foldl_cons, String.intercalate.go]
    simpa using ih (acc ++ sep ++ a) (n + 1)

/-- The loop of `QStringList::join` computes the strings with `sep` between them. -/
theorem join_eq_intercalate (l : List String) (sep : String) :
    join l sep = sep.intercalate l := by
  cases l with
  | nil => rfl
  | cons a l =>
    simp only [join, List.foldl_cons, String.intercalate]
    have := join_go sep l ("" ++ a) 0
    simpa using this

theorem requestEvent_query (F : Formats qreal QDate) (p : Provider)
    (country search : String) (startAt : QDate) (mode : SortMode) (page pageSize : Int) :
    (p.requestEvent F country search startAt mode page pageSize).url.query =
      p.m_baseUrl.query ++
      (if search ≠ "" then [("search", search)] else []) ++
      (match mode with
        | SortMode.Newest => [("sortmode", "new")]
        | SortMode.Alphabetical => [("sortmode", "alpha")]
        | _ => []) ++
      (if country ≠ "" then [("country", country)] else []) ++
      [("startat", F.toStringISO startAt), ("page", number page), ("pagesize", number pageSize)] := by
  cases mode <;> by_cases hs : search = "" <;> by_cases hc : country = "" <;>
    simp [requestEvent, Job.url, Job.new, Job.setUrl, Job.start, KUrl.addQueryItem,
      createUrl_query, hs, hc]

theorem requestKnowledgeBase_query (p : Provider) (content : Int) (search : String)
    (mode : SortMode) (page pageSize : Int) :
    (p.requestKnowledgeBase content search mode page pageSize).url.query =
      p.m_baseUrl.query ++ (if content ≠ 0 then [("content", number content)] else []) ++
        [("search", search),
         ("sortmode", match mode with
            | SortMode.Newest => "new"
            | SortMode.Alphabetical => "alpha"
            | SortMode.Rating => "high"
            | SortMode.Downloads => "new"),
         ("page", number page), ("pagesize", number pageSize)] := by
  cases mode <;> by_cases hc : content = 0 <;>
    simp [requestKnowledgeBase, Job.url, Job.new, Job.setUrl, Job.start, KUrl.addQueryItem,
      createUrl_query, hc]

theorem requestContent_query (p : Provider) (cs : List Category) (search : String)
    (mode : SortMode) :
    (p.requestContent cs search mode).url.query =
      p.m_baseUrl.query ++
        [("categories", "x".intercalate (cs.map Category.id)),
         ("search", search),
         ("sortmode", match mode with
            | SortMode.Newest => "new"
            | SortMode.Alphabetical => "alpha"
            | SortMode.Rating => "high"
            | SortMode.Downloads => "down")] := by
  cases mode <;>
    simp [requestContent, Job.url, Job.new, Job.setUrl, Job.start, KUrl.addQueryItem,
      createUrl_query, collectIds_eq, join_eq_intercalate]

/-! ### Double slashes -/

theorem hasDoubleSlash_iff_infix (l : List Char) :
    hasDoubleSlash l = true ↔ ['/', '/'] <:+: l := by
  induction l with
  | nil => simp [hasDoubleSlash]
  | cons c rest ih =>
    rw [hasDoubleSlash, Bool.or_eq_true, ih, List.infix_cons_iff]
    constructor
    · rintro (h | h)
      · left
        simp only [Bool.and_eq_true, beq_iff_eq] at h
        obtain ⟨rfl, h2⟩ := h
        cases rest with
        | nil => simp at h2
        | cons d r =>
          simp at h2; subst h2
          exact ⟨r, by simp⟩
      · exact Or.inr h
    · rintro (h | h)
      · left
        obtain ⟨t, ht⟩ := h
        simp at ht
        obtain ⟨rfl, rfl⟩ := ht
        simp
      · exact Or.inr h

theorem hasDoubleSlash_append (a b : List Char) :
    hasDoubleSlash (a ++ b) =
      (hasDoubleSlash a || hasDoubleSlash b ||
        (a.getLast? == some '/' && b.head? == some '/')) := by
  induction a with
  | nil => simp [hasDoubleSlash]
  | cons c rest ih =>
    cases rest with
    | nil =>
      cases b with
      | nil => simp [hasDoubleSlash]
      | cons d b' =>
        simp only [List.singleton_append, hasDoubleSlash, List.head?_cons, List.getLast?_singleton,
          Bool.or_false, Bool.false_or]
        cases hc : (c == '/') <;> cases hd : (d == '/') <;> simp [hc, hd]
    | cons d r =>
      simp only [List.cons_append, hasDoubleSlash, List.head?_cons] at ih ⊢
      rw [ih]
      simp [List.getLast?_cons_cons, Bool.or_assoc]

theorem stripSlashes_head (t : List Char) : (KUrl.stripSlashes t).head? ≠ some '/' := by
  induction t with
  | nil => simp [KUrl.stripSlashes]
  | cons c rest ih =>
    by_cases h : c = '/'
    · simpa [KUrl.stripSlashes, h] using ih
    · simp [KUrl.stripSlashes, h]

theorem stripSlashes_noDouble (t : List Char) (h : hasDoubleSlash t = false) :
    hasDoubleSlash (KUrl.stripSlashes t) = false := by
  induction t with
  | nil => simp [KUrl.stripSlashes, hasDoubleSlash]
  | cons c rest ih =>
    simp only [hasDoubleSlash, Bool.or_eq_false_iff] at h
    by_cases hc : c = '/'
    · simpa [KUrl.stripSlashes, hc] using ih h.2
    · simp [KUrl.stripSlashes, hc, hasDoubleSlash, h.2]

theorem stripSlashes_of_head (t : List Char) (h : t.head? ≠ some '/') :
    KUrl.stripSlashes t = t := by
  cases t with
  | nil => rfl
  | cons c rest =>
    have hc : c ≠ '/' := by simpa using h
    simp [KUrl.stripSlashes, hc]

/-- Adding a relative path that does not start with a slash puts it after the current
path, with one slash between them. -/
theorem joinPath_relative (a t : List Char) (h0 : t ≠ []) (h1 : t.head? ≠ some '/') :
    KUrl.joinPath a t =
      (if a.getLast? = some '/' then a ++ t else a ++ '/' :: t) := by
  unfold KUrl.joinPath
  rw [if_neg h0]
  by_cases h2 : a.getLast? = some '/'
  · have ha : a ≠ [] := by rintro rfl; simp at h2
    have hc : ¬ (t.head? ≠ some '/' ∧ (a = [] ∨ a.getLast? ≠ some '/')) := by
      rintro ⟨-, h | h⟩
      · exact ha h
      · exact h h2
    simp only [if_neg hc, if_pos h2, stripSlashes_of_head t h1]
  · have hc : t.head? ≠ some '/' ∧ (a = [] ∨ a.getLast? ≠ some '/') := ⟨h1, Or.inr h2⟩
    have hl : (a ++ ['/']).getLast? = some '/' := by simp
    simp only [if_pos hc, if_pos hl, if_neg h2, stripSlashes_of_head t h1]
    simp

/-- The path of `createUrl` for a relative path that does not start with a slash: the
path of the base URL, then the relative path, with one slash between them. -/
theorem createUrl_path_relative (p : Provider) (path : String) (h0 : path.data ≠ [])
    (h1 : path.data.head? ≠ some '/') :
    (p.createUrl path).path =
      (if p.m_baseUrl.path.data.getLast? = some '/' then p.m_baseUrl.path ++ path
        else p.m_baseUrl.path ++ "/" ++ path) := by
  rw [createUrl, addPath_path, joinPath_relative _ _ h0 h1]
  split <;> apply String.ext <;> simp

theorem joinPath_noDouble (a t : List Char) (ha : hasDoubleSlash a = false)
    (ht : hasDoubleSlash t = false) : hasDoubleSlash (KUrl.joinPath a t) = false := by
  unfold KUrl.joinPath
  by_cases h0 : t = []
  · rw [if_pos h0]; exact ha
  · rw [if_neg h0]
    by_cases h1 : t.head? ≠ some '/' ∧ (a = [] ∨ a.getLast? ≠ some '/')
    · have hl : (a ++ ['/']).getLast? = some '/' := by simp
      simp only [if_pos h1, if_pos hl]
      have hs := stripSlashes_head t
      have ha' : hasDoubleSlash (a ++ ['/']) = false := by
        rw [hasDoubleSlash_append]
        rcases h1.2 with h | h
        · simp [h, hasDoubleSlash]
        · simp [ha, hasDoubleSlash, h]
      rw [hasDoubleSlash_append, ha', stripSlashes_noDouble t ht]
      simp [hs]
    · simp only [if_neg h1]
      by_cases h2 : a.getLast? = some '/'
      · rw [if_pos h2, hasDoubleSlash_append, ha, stripSlashes_noDouble t ht]
        simp [stripSlashes_head t]
      · rw [if_neg h2, hasDoubleSlash_append, ha, ht]
        simp [h2]

/-! ### Integers in a query -/

theorem isDigit_digitChar (m : Nat) (h : m < 10) : (Nat.digitChar m).isDigit = true := by
  interval_cases m <;> decide

theorem isDigit_toDigitsCore (fuel n : Nat) (ds : List Char)
    (hds : ∀ c ∈ ds, c.isDigit = true) :
    ∀ c ∈ Nat.toDigitsCore 10 fuel n ds, c.isDigit = true := by
  induction fuel generalizing n ds with
  | zero => simpa [Nat.toDigitsCore] using hds
  | succ fuel ih =>
    have hd := isDigit_digitChar (n % 10) (Nat.mod_lt _ (by decide))
    have hcons : ∀ c ∈ Nat.digitChar (n % 10) :: ds, c.isDigit = true := by
      intro c hc
      rcases List.mem_cons.mp hc with rfl | hc
      · exact hd
      · exact hds c hc
    unfold Nat.toDigitsCore
    by_cases h : n / 10 = 0
    · simpa [h] using hcons
    · simpa [h] using ih (n / 10) _ hcons

theorem isDigit_repr (n : Nat) : ∀ c ∈ (Nat.repr n).data, c.isDigit = true := by
  simpa [Nat.repr, Nat.toDigits, List.asString] using
    isDigit_toDigitsCore (n + 1) n [] (by simp)

/-- The text of an integer is made of decimal digits, after a `-` when it is negative. -/
theorem number_chars (n : Int) : ∀ c ∈ (number n).data, c.isDigit = true ∨ c = '-' := by
  unfold number
  by_cases h : n < 0
  · rw [if_pos h]
    intro c hc
    rw [String.data_append, List.mem_append] at hc
    rcases hc with hc | hc
    · right; simpa using hc
    · exact Or.inl (isDigit_repr _ c hc)
  · rw [if_neg h]; exact fun c hc => Or.inl (isDigit_repr _ c hc)

theorem toPercentEncoding_of_unreserved (s : String)
    (h : ∀ c ∈ s.data, KUrl.unreserved c = true) : KUrl.toPercentEncoding s = s := by
  have : ∀ l : List Char, (∀ c ∈ l, KUrl.unreserved c = true) → l.flatMap KUrl.encodeChar = l := by
    intro l hl
    induction l with
    | nil => rfl
    | cons c l ih =>
      have hc := hl c (List.mem_cons_self _ _)
      simp [List.flatMap_cons, KUrl.encodeChar, hc, ih (fun d hd => hl d (List.mem_cons_of_mem _ hd))]
  unfold KUrl.toPercentEncoding
  rw [this _ h]

/-- Percent-encoding leaves the text of an integer as it is. -/
theorem toPercentEncoding_number (n : Int) : KUrl.toPercentEncoding (number n) = number n := by
  apply toPercentEncoding_of_unreserved
  intro c hc
  rcases number_chars n c hc with h | rfl
  · simp [KUrl.unreserved, Char.isAlphanum, h]
  · decide

/-! ### Joining with a separator -/

theorem intercalate_go_append (sep acc b : String) (l : List String) :
    String.intercalate.go (acc ++ b) sep l = acc ++ String.intercalate.go b sep l := by
  induction l generalizing b with
  | nil => rfl
  | cons a l ih =>
    simp only [String.intercalate.go]
    rw [String.append_assoc, String.append_assoc, ← String.append_assoc b, ih]

theorem intercalate_cons_cons (sep c d : String) (rest : List String) :
    sep.intercalate (c :: d :: rest) = c ++ sep ++ sep.intercalate (d :: rest) := by
  simp only [String.intercalate, String.intercalate.go]
  rw [intercalate_go_append]

end Lemmas

/-! ## The claims -/

section Claims

variable {qreal QDate : Type}

/-- C1: `byId "opendesktop"` is the provider with id "opendesktop", base URL
"https://api.opendesktop.org/v1/" and name "OpenDesktop.org", none of them empty; every
other id gives the default provider, whose id, name and base URL are empty.  `byId` is a
total function: no id makes it fail. -/
theorem byId_spec :
    (byId "opendesktop").id = "opendesktop" ∧
    (byId "opendesktop").m_baseUrl.url = "https://api.opendesktop.org/v1/" ∧
    (byId "opendesktop").name = "OpenDesktop.org" ∧
    (byId "opendesktop").id ≠ "" ∧ (byId "opendesktop").m_baseUrl.url ≠ "" ∧
    (byId "opendesktop").name ≠ "" ∧
    ∀ id : String, id ≠ "opendesktop" →
      byId id = Provider.default ∧ (byId id).id = "" ∧ (byId id).name = "" ∧
      (byId id).m_baseUrl = KUrl.empty ∧ (byId id).m_baseUrl.url = "" := by
  refine ⟨by decide, by decide, by decide, by decide, by decide, by decide, ?_⟩
  intro id h
  have : byId id = Provider.default := by simp [byId, h]
  rw [this]
  exact ⟨rfl, rfl, rfl, rfl, by decide⟩

/-- C2, at the input where the code departs from it: content search with no category and
an empty search string still sends `categories=` and `search=`, and knowledge-base
search with an empty search string still sends `search=`. -/
theorem empty_search_still_sent :
    ((byId "opendesktop").requestContent [] "" SortMode.Newest).url.url =
      "https://api.opendesktop.org/v1/content/data?categories=&search=&sortmode=new" ∧
    ((byId "opendesktop").requestContent [] "" SortMode.Newest).url.hasQueryItem "search" = true ∧
    ((byId "opendesktop").requestContent [] "" SortMode.Newest).url.hasQueryItem "categories" = true ∧
    ((byId "opendesktop").requestKnowledgeBase 0 "" SortMode.Newest 1 10).url.url =
      "https://api.opendesktop.org/v1/knowledgebase/data?search=&sortmode=new&page=1&pagesize=10" ∧
    ((byId "opendesktop").requestKnowledgeBase 0 "" SortMode.Newest 1 10).url.hasQueryItem "search"
      = true := by
  decide

/-- The part of C2 the code keeps: event search sends no `search` for an empty search
string and no `country` for an empty country, and knowledge-base search sends no
`content` for content 0. -/
theorem optional_filters_omitted (F : Formats qreal QDate) (p : Provider)
    (country search : String) (startAt : QDate) (mode : SortMode) (page pageSize : Int)
    (hq : p.m_baseUrl.query = []) :
    (search = "" →
      (p.requestEvent F country search startAt mode page pageSize).url.hasQueryItem "search"
        = false) ∧
    (country = "" →
      (p.requestEvent F country search startAt mode page pageSize).url.hasQueryItem "country"
        = false) ∧
    (p.requestKnowledgeBase 0 search mode page pageSize).url.hasQueryItem "content" = false := by
  refine ⟨?_, ?_, ?_⟩
  · intro hs
    simp only [KUrl.hasQueryItem, requestEvent_query, hq]
    cases mode <;> by_cases hc : country = "" <;> simp [hs, hc]
  · intro hc
    simp only [KUrl.hasQueryItem, requestEvent_query, hq]
    cases mode <;> by_cases hs : search = "" <;> simp [hs, hc]
  · simp [KUrl.hasQueryItem, requestKnowledgeBase_query, hq]

/-- C3: in event search the `sortmode` values of the URL are `new` for Newest, `alpha` for
Alphabetical and none for Rating and Downloads, so the parameter is there exactly for
Newest and Alphabetical, whatever the other arguments are. -/
theorem requestEvent_sortmode (F : Formats qreal QDate) (p : Provider)
    (country search : String) (startAt : QDate) (mode : SortMode) (page pageSize : Int)
    (hq : p.m_baseUrl.query = []) :
    (p.requestEvent F country search startAt mode page pageSize).url.allQueryItemValues "sortmode" =
      (match mode with
        | SortMode.Newest => ["new"]
        | SortMode.Alphabetical => ["alpha"]
        | SortMode.Rating => []
        | SortMode.Downloads => []) ∧
    ((p.requestEvent F country search startAt mode page pageSize).url.hasQueryItem "sortmode" = true
      ↔ mode = SortMode.Newest ∨ mode = SortMode.Alphabetical) := by
  simp only [KUrl.allQueryItemValues, KUrl.hasQueryItem, requestEvent_query, hq]
  cases mode <;> by_cases hs : search = "" <;> by_cases hc : country = "" <;>
    simp [hs, hc, List.filter_cons]

theorem requestEvent_sortmode_witness :
    (byId "opendesktop").m_baseUrl.query = [] ∧
    ((byId "opendesktop").requestEvent textFormats "" "" "2009-06-01" SortMode.Rating 0
        10).url.hasQueryItem "sortmode" = false ∧
    ((byId "opendesktop").requestEvent textFormats "" "" "2009-06-01" SortMode.Rating 0
        10).url.url = "https://api.opendesktop.org/v1/event/data?startat=2009-06-01&page=0&pagesize=10" ∧
    ((byId "opendesktop").requestEvent textFormats "de" "lug" "2009-06-01" SortMode.Newest 0
        10).url.allQueryItemValues "sortmode" = ["new"] :=
  ⟨by decide, by decide, by decide,
    (requestEvent_sortmode textFormats (byId "opendesktop") "de" "lug" "2009-06-01"
      SortMode.Newest 0 10 (by decide)).1⟩

/-- C4: `postMessage m` returns a Post job whose URL is the base URL with "message/2"
added (host and query of the base URL, its path followed by "message/2" with one slash
between them; https://api.opendesktop.org/v1/message/2 for the opendesktop provider) and
whose payload is ("message", body), ("subject", subject), ("to", to), in this order and
nothing else. -/
theorem postMessage_spec (p : Provider) (m : Message) :
    (p.postMessage m).kind = JobKind.Post ∧
    (p.postMessage m).url = p.createUrl "message/2" ∧
    (p.postMessage m).url = p.m_baseUrl.addPath "message/2" ∧
    (p.postMessage m).url.path =
      (if p.m_baseUrl.path.data.getLast? = some '/' then p.m_baseUrl.path ++ "message/2"
        else p.m_baseUrl.path ++ "/" ++ "message/2") ∧
    (p.postMessage m).url.host = p.m_baseUrl.host ∧
    (p.postMessage m).url.scheme =
      (if p.m_baseUrl.scheme = "" then "file" else p.m_baseUrl.scheme) ∧
    (p.postMessage m).url.query = p.m_baseUrl.query ∧
    ((byId "opendesktop").postMessage m).url.url = "https://api.opendesktop.org/v1/message/2" ∧
    (p.postMessage m).data =
      [("message", m.body), ("subject", m.subject), ("to", m.recipient)] ∧
    (p.postMessage m).data.length = 3 ∧
    (p.postMessage { recipient := "alice", subject := "Hi", body := "hello" }).data =
      [("message", "hello"), ("subject", "Hi"), ("to", "alice")] ∧
    ((byId "opendesktop").postMessage
        { recipient := "alice", subject := "Hi", body := "hello" }).calls =
      [Call.setUrl ⟨"https", "api.opendesktop.org", "/v1/message/2", []⟩,
        Call.setData "message" "hello", Call.setData "subject" "Hi",
        Call.setData "to" "alice", Call.start] := by
  have hu : (p.postMessage m).url = p.m_baseUrl.addPath "message/2" := rfl
  refine ⟨rfl, rfl, hu, ?_, ?_, ?_, ?_, ?_, rfl, rfl, rfl, by decide⟩
  · exact createUrl_path_relative p "message/2" (by decide) (by decide)
  · rw [hu, addPath_host]
  · rw [hu]; rfl
  · rw [hu, addPath_query]
  · show ((byId "opendesktop").createUrl "message/2").url = _
    decide

/-- C5: content search sends one `categories` parameter, first in the query, whose value
is the ids of the categories in list order with "x" between them: the id itself for one
category, `c1xc2` for the ids c1 and c2. -/
theorem requestContent_categories (p : Provider) (categories : List Category)
    (search : String) (sortMode : SortMode) (hq : p.m_baseUrl.query = []) :
    (p.requestContent categories search sortMode).url.allQueryItemValues "categories" =
      ["x".intercalate (categories.map Category.id)] ∧
    (p.requestContent categories search sortMode).url.query.head? =
      some ("categories", "x".intercalate (categories.map Category.id)) ∧
    (∀ c : Category,
      (p.requestContent [c] search sortMode).url.allQueryItemValues "categories" = [c.id]) ∧
    (∀ c d : Category, ∀ rest : List Category,
      (p.requestContent (c :: d :: rest) search sortMode).url.allQueryItemValues "categories" =
        [c.id ++ "x" ++ "x".intercalate ((d :: rest).map Category.id)]) ∧
    (∀ n1 n2 : String,
      (p.requestContent [{ id := "c1", name := n1 }, { id := "c2", name := n2 }] search
          sortMode).url.allQueryItemValues "categories" = ["c1xc2"]) ∧
    (∀ n1 n2 : String,
      (p.requestContent [{ id := "c1", name := n1 }, { id := "c2", name := n2 }] search
          sortMode).url.encodedQuery =
        "categories=c1xc2&search=" ++ KUrl.toPercentEncoding search ++
          (match sortMode with
            | SortMode.Newest => "&sortmode=new"
            | SortMode.Alphabetical => "&sortmode=alpha"
            | SortMode.Rating => "&sortmode=high"
            | SortMode.Downloads => "&sortmode=down")) := by
  have hv : ∀ cs : List Category,
      (p.requestContent cs search sortMode).url.allQueryItemValues "categories" =
        ["x".intercalate (cs.map Category.id)] := by
    intro cs
    simp [KUrl.allQueryItemValues, requestContent_query, hq, List.filter_cons]
  refine ⟨hv _, ?_, ?_, ?_, ?_, ?_⟩
  · simp [requestContent_query, hq]
  · intro c; rw [hv]; rfl
  · intro c d rest; rw [hv, List.map_cons, List.map_cons, intercalate_cons_cons]
  · intro n1 n2; rw [hv]; rfl
  · intro n1 n2
    simp only [KUrl.encodedQuery, requestContent_query, hq, List.nil_append, KUrl.encodeItems]
    have h1 : KUrl.toPercentEncoding ("x".intercalate ["c1", "c2"]) = "c1xc2" := by decide
    have h2 : KUrl.toPercentEncoding "new" = "new" := by decide
    have h3 : KUrl.toPercentEncoding "alpha" = "alpha" := by decide
    have h4 : KUrl.toPercentEncoding "high" = "high" := by decide
    have h5 : KUrl.toPercentEncoding "down" = "down" := by decide
    simp only [List.map_cons, List.map_nil, h1]
    cases sortMode <;> simp only [h2, h3, h4, h5] <;> apply String.ext <;> simp

theorem requestContent_categories_witness :
    (byId "opendesktop").m_baseUrl.query = [] ∧
    ((byId "opendesktop").requestContent
        [{ id := "c1", name := "Wallpapers" }, { id := "c2", name := "Themes" }] "kde"
        SortMode.Rating).url.allQueryItemValues "categories" = ["c1xc2"] ∧
    ((byId "opendesktop").requestContent
        [{ id := "c1", name := "Wallpapers" }, { id := "c2", name := "Themes" }] "kde"
        SortMode.Rating).url.url =
      "https://api.opendesktop.org/v1/content/data?categories=c1xc2&search=kde&sortmode=high" :=
  ⟨by decide,
    (requestContent_categories (byId "opendesktop")
      [{ id := "c1", name := "Wallpapers" }, { id := "c2", name := "Themes" }] "kde"
      SortMode.Rating (by decide)).1,
    by decide⟩

/-- C6: for a provider whose base URL has no query of its own, person search by location
returns a PersonList job whose URL is the base URL with "person/data" added and whose
query is latitude, longitude, distance, page, pagesize, these five in this order; page
and pagesize are written with decimal digits after a `-` when negative, and are not
changed by the encoding.  When the three reals are written "10.5", "20.25" and "5", the
query for page 2 and page size 10 is
latitude=10.5&longitude=20.25&distance=5&page=2&pagesize=10. -/
theorem requestPersonSearchByLocation_spec (F : Formats qreal QDate) (p : Provider)
    (latitude longitude distance : qreal) (page pageSize : Int)
    (hq : p.m_baseUrl.query = []) :
    (p.requestPersonSearchByLocation F latitude longitude distance page pageSize).kind =
      JobKind.PersonList ∧
    (p.requestPersonSearchByLocation F latitude longitude distance page pageSize).url =
      { p.createUrl "person/data" with
        query := [("latitude", F.number latitude), ("longitude", F.number longitude),
          ("distance", F.number distance), ("page", number page),
          ("pagesize", number pageSize)] } ∧
    (p.requestPersonSearchByLocation F latitude longitude distance page pageSize).url.encodedQuery =
      "latitude=" ++ KUrl.toPercentEncoding (F.number latitude) ++
      "&longitude=" ++ KUrl.toPercentEncoding (F.number longitude) ++
      "&distance=" ++ KUrl.toPercentEncoding (F.number distance) ++
      "&page=" ++ number page ++ "&pagesize=" ++ number pageSize ∧
    (∀ c ∈ (number page).data, c.isDigit = true ∨ c = '-') ∧
    (∀ c ∈ (number pageSize).data, c.isDigit = true ∨ c = '-') ∧
    (F.number latitude = "10.5" → F.number longitude = "20.25" → F.number distance = "5" →
      (p.requestPersonSearchByLocation F latitude longitude distance 2 10).url.encodedQuery =
        "latitude=10.5&longitude=20.25&distance=5&page=2&pagesize=10") ∧
    (p.requestPersonSearchByLocation F latitude longitude distance page pageSize).url.path =
      (if p.m_baseUrl.path.data.getLast? = some '/' then p.m_baseUrl.path ++ "person/data"
        else p.m_baseUrl.path ++ "/" ++ "person/data") ∧
    (p.requestPersonSearchByLocation F latitude longitude distance page pageSize).url.host =
      p.m_baseUrl.host := by
  have hu : ∀ pg ps : Int,
      (p.requestPersonSearchByLocation F latitude longitude distance pg ps).url =
      { p.createUrl "person/data" with
        query := [("latitude", F.number latitude), ("longitude", F.number longitude),
          ("distance", F.number distance), ("page", number pg), ("pagesize", number ps)] } := by
    intro pg ps
    simp [requestPersonSearchByLocation, doRequestPersonList, Job.url, Job.new, Job.setUrl,
      Job.start, KUrl.addQueryItem, createUrl_query, hq]
  refine ⟨rfl, hu _ _, ?_, number_chars page, number_chars pageSize, ?_, ?_, ?_⟩
  · rw [hu]
    simp only [KUrl.encodedQuery, KUrl.encodeItems, toPercentEncoding_number]
    apply String.ext
    simp
  · intro h1 h2 h3
    rw [hu, h1, h2, h3]
    show KUrl.encodeItems [("latitude", "10.5"), ("longitude", "20.25"), ("distance", "5"),
      ("page", number 2), ("pagesize", number 10)] = _
    decide
  · rw [hu]
    exact createUrl_path_relative p "person/data" (by decide) (by decide)
  · rw [hu]
    exact addPath_host p.m_baseUrl "person/data"

theorem requestPersonSearchByLocation_witness :
    (byId "opendesktop").m_baseUrl.query = [] ∧
    ((byId "opendesktop").requestPersonSearchByLocation textFormats "10.5" "20.25" "5" 2
        10).url.url =
      "https://api.opendesktop.org/v1/person/data?latitude=10.5&longitude=20.25&distance=5&page=2&pagesize=10" ∧
    ((byId "opendesktop").requestPersonSearchByLocation textFormats "10.5" "20.25" "5" 2
        10).url.encodedQuery = "latitude=10.5&longitude=20.25&distance=5&page=2&pagesize=10" :=
  ⟨by decide, by decide,
    (requestPersonSearchByLocation_spec textFormats (byId "opendesktop") "10.5" "20.25" "5" 2 10
      (by decide)).2.2.2.2.2.1 rfl rfl rfl⟩

/-- C7: every public operation makes, on the job it returns, one `setUrl`, then the
`setData` calls of its payload (none for a `request…` operation), then one `start`, which
is the last call and the only `start`. -/
theorem dispatch_calls (F : Formats qreal QDate) (p : Provider) (op : Op qreal QDate) :
    (op.run F p).calls =
      Call.setUrl (op.run F p).url ::
        ((op.run F p).data.map (fun kv => Call.setData kv.1 kv.2) ++ [Call.start]) ∧
    (op.isPost = true ∨ (op.run F p).data = []) ∧
    (op.run F p).starts = 1 ∧
    (op.run F p).calls.getLast? = some Call.start := by
  cases op <;>
    exact ⟨rfl, by first | exact Or.inl rfl | exact Or.inr rfl, rfl, rfl⟩

/-- C8: in knowledge-base search Downloads is sent as Newest: the two jobs, and so the two
URLs, are the same and carry sortmode=new; Alphabetical carries sortmode=alpha and Rating
sortmode=high, so each of the four modes sends a `sortmode` parameter, and sends one. -/
theorem requestKnowledgeBase_sortmode (p : Provider) (content : Int) (search : String)
    (page pageSize : Int) :
    (p.requestKnowledgeBase content search SortMode.Downloads page pageSize).url =
      (p.requestKnowledgeBase content search SortMode.Newest page pageSize).url ∧
    ("sortmode", "new") ∈
      (p.requestKnowledgeBase content search SortMode.Downloads page pageSize).url.query ∧
    ("sortmode", "new") ∈
      (p.requestKnowledgeBase content search SortMode.Newest page pageSize).url.query ∧
    ("sortmode", "alpha") ∈
      (p.requestKnowledgeBase content search SortMode.Alphabetical page pageSize).url.query ∧
    ("sortmode", "high") ∈
      (p.requestKnowledgeBase content search SortMode.Rating page pageSize).url.query ∧
    (∀ mode : SortMode,
      (p.requestKnowledgeBase content search mode page pageSize).url.hasQueryItem "sortmode"
        = true) ∧
    (∀ mode : SortMode,
      (p.requestKnowledgeBase content search mode page pageSize).url.allQueryItemValues "sortmode" =
        p.m_baseUrl.allQueryItemValues "sortmode" ++
          [match mode with
            | SortMode.Newest => "new"
            | SortMode.Alphabetical => "alpha"
            | SortMode.Rating => "high"
            | SortMode.Downloads => "new"]) := by
  refine ⟨rfl, ?_, ?_, ?_, ?_, ?_, ?_⟩
  · simp [requestKnowledgeBase_query]
  · simp [requestKnowledgeBase_query]
  · simp [requestKnowledgeBase_query]
  · simp [requestKnowledgeBase_query]
  · intro mode
    simp [KUrl.hasQueryItem, requestKnowledgeBase_query]
  · intro mode
    simp only [KUrl.allQueryItemValues, requestKnowledgeBase_query]
    by_cases hc : content = 0 <;> simp [hc, List.filter_cons]

/-- C9 as stated fails: the base path "/v1/" has no double slash, and `requestPerson "/x"`
asks for "person/data//x", which `createUrl` adds as it is.  The scheme fails too at the
default provider, whose empty base URL becomes a `file` URL. -/
theorem createUrl_doubleSlash_counterexample :
    hasDoubleSlash (byId "opendesktop").m_baseUrl.path.data = false ∧
    ((byId "opendesktop").requestPerson "/x").url.path = "/v1/person/data//x" ∧
    hasDoubleSlash ((byId "opendesktop").requestPerson "/x").url.path.data = true ∧
    hasDoubleSlash Provider.default.m_baseUrl.path.data = false ∧
    (Provider.default.createUrl "person/self").scheme = "file" ∧
    (Provider.default.createUrl "person/self").scheme ≠ Provider.default.m_baseUrl.scheme := by
  decide

/-- C9, amended: when neither the path of the base URL nor the relative path has a
double slash, the path of the URL `createUrl` returns has none and its host is that of
the base URL; its scheme is that of the base URL when the base URL has a scheme. -/
theorem createUrl_noDoubleSlash (p : Provider) (path : String)
    (hb : hasDoubleSlash p.m_baseUrl.path.data = false)
    (hp : hasDoubleSlash path.data = false) :
    hasDoubleSlash (p.createUrl path).path.data = false ∧
    (p.createUrl path).host = p.m_baseUrl.host ∧
    (p.m_baseUrl.scheme ≠ "" → (p.createUrl path).scheme = p.m_baseUrl.scheme) := by
  refine ⟨?_, addPath_host _ _, addPath_scheme _ _⟩
  rw [createUrl, addPath_path]
  exact joinPath_noDouble _ _ hb hp

theorem createUrl_noDoubleSlash_witness :
    hasDoubleSlash (byId "opendesktop").m_baseUrl.path.data = false ∧
    hasDoubleSlash ("person/data/" ++ "frank").data = false ∧
    ((byId "opendesktop").createUrl ("person/data/" ++ "frank")).url =
      "https://api.opendesktop.org/v1/person/data/frank" ∧
    hasDoubleSlash ((byId "opendesktop").createUrl ("person/data/" ++ "frank")).path.data = false ∧
    ((byId "opendesktop").createUrl ("person/data/" ++ "frank")).scheme = "https" :=
  ⟨by decide, by decide, by decide,
    (createUrl_noDoubleSlash (byId "opendesktop") ("person/data/" ++ "frank")
      (by decide) (by decide)).1,
    (createUrl_noDoubleSlash (byId "opendesktop") ("person/data/" ++ "frank")
      (by decide) (by decide)).2.2 (by decide)⟩

/-- An id that has no double slash and does not start with a slash can follow a
path ending in one slash without making a double slash. -/
theorem embedded_id_noDoubleSlash (pre id : String)
    (hpre : hasDoubleSlash pre.data = false)
    (hid : hasDoubleSlash id.data = false) (h0 : id.data.head? ≠ some '/') :
    hasDoubleSlash (pre ++ id).data = false := by
  rw [String.data_append, hasDoubleSlash_append, hpre, hid]
  simp [h0]

/-- C10: for a provider whose base URL has no query of its own, each `post…` operation
returns a Post job whose URL is the base URL with the path added and no query, and
whose payload is the listed fields in the listed order. -/
theorem post_operations_spec (F : Formats qreal QDate) (p : Provider)
    (message to_ city country : String) (latitude longitude : qreal)
    (hq : p.m_baseUrl.query = []) :
    ((p.postActivity message).kind = JobKind.Post ∧
      (p.postActivity message).url = p.createUrl "activity" ∧
      (p.postActivity message).url.query = [] ∧
      (p.postActivity message).data = [("message", message)]) ∧
    ((p.postInvitation to_ message).kind = JobKind.Post ∧
      (p.postInvitation to_ message).url = p.createUrl ("friend/outbox/" ++ to_) ∧
      (p.postInvitation to_ message).url.query = [] ∧
      (p.postInvitation to_ message).data = [("message", message)]) ∧
    ((p.postLocation F latitude longitude city country).kind = JobKind.Post ∧
      (p.postLocation F latitude longitude city country).url = p.createUrl "person/self" ∧
      (p.postLocation F latitude longitude city country).url.query = [] ∧
      (p.postLocation F latitude longitude city country).data =
        [("latitude", F.arg latitude), ("longitude", F.arg longitude), ("city", city),
          ("country", country)] ∧
      (p.postLocation F latitude longitude city country).data.map Prod.fst =
        ["latitude", "longitude", "city", "country"]) ∧
    (∀ op : Op qreal QDate, op.isPost = true →
      (op.run F p).kind = JobKind.Post ∧ (op.run F p).url.query = []) ∧
    ((p.postActivity message).url.path =
        (if p.m_baseUrl.path.data.getLast? = some '/' then p.m_baseUrl.path ++ "activity"
          else p.m_baseUrl.path ++ "/" ++ "activity") ∧
      (p.postInvitation to_ message).url.path =
        (if p.m_baseUrl.path.data.getLast? = some '/'
          then p.m_baseUrl.path ++ ("friend/outbox/" ++ to_)
          else p.m_baseUrl.path ++ "/" ++ ("friend/outbox/" ++ to_)) ∧
      (p.postLocation F latitude longitude city country).url.path =
        (if p.m_baseUrl.path.data.getLast? = some '/' then p.m_baseUrl.path ++ "person/self"
          else p.m_baseUrl.path ++ "/" ++ "person/self") ∧
      (p.postActivity message).url.host = p.m_baseUrl.host ∧
      (p.postInvitation to_ message).url.host = p.m_baseUrl.host ∧
      (p.postLocation F latitude longitude city country).url.host = p.m_baseUrl.host) :=
  ⟨⟨rfl, rfl, (createUrl_query p "activity").trans hq, rfl⟩,
    ⟨rfl, rfl, (createUrl_query p ("friend/outbox/" ++ to_)).trans hq, rfl⟩,
    ⟨rfl, rfl, (createUrl_query p "person/self").trans hq, rfl, rfl⟩,
    fun op h => by
      cases op <;>
        first
        | exact ⟨rfl, hq⟩
        | exact absurd h (by simp [Op.isPost]),
    ⟨createUrl_path_relative p "activity" (by decide) (by decide),
      createUrl_path_relative p ("friend/outbox/" ++ to_) (by simp [String.data_append])
        (by simp [String.data_append]),
      createUrl_path_relative p "person/self" (by decide) (by decide),
      addPath_host p.m_baseUrl "activity", addPath_host p.m_baseUrl ("friend/outbox/" ++ to_),
      addPath_host p.m_baseUrl "person/self"⟩⟩

theorem post_operations_witness :
    (byId "opendesktop").m_baseUrl.query = [] ∧
    ((byId "opendesktop").postLocation textFormats "48.1" "11.5" "Munich" "de").url.url =
      "https://api.opendesktop.org/v1/person/self" ∧
    ((byId "opendesktop").postLocation textFormats "48.1" "11.5" "Munich" "de").data =
      [("latitude", "48.1"), ("longitude", "11.5"), ("city", "Munich"), ("country", "de")] :=
  ⟨by decide, by decide,
    (post_operations_spec textFormats (byId "opendesktop") "hello" "frank" "Munich" "de"
      "48.1" "11.5" (by decide)).2.2.1.2.2.2.1⟩

end Claims

end Attica
